import Mathlib

/-
Verification of the XCCDF policy-evaluation core (src/XCCDF_POLICY/xccdf_policy.c)
against its natural-language specification.

The C code is shallowly embedded: C ints carrying xccdf_test_result_type_t
values become Nat (or Int where the C type admits negatives), iterator loops
become structural recursion over lists, and in-place mutation of a freshly
cloned object becomes construction of a new value.  Result kinds follow the
enumeration xccdf_test_result_type_t of the repository headers, which the
specification restates in section 3: Pass(1), Fail(2), Error(3), Unknown(4),
NotApplicable(5), NotChecked(6), NotSelected(7), Informational(8).
-/

namespace XccdfPolicy

/-! ## Result kinds (xccdf_test_result_type_t) -/

def XCCDF_RESULT_PASS : Nat := 1
def XCCDF_RESULT_FAIL : Nat := 2
def XCCDF_RESULT_ERROR : Nat := 3
def XCCDF_RESULT_UNKNOWN : Nat := 4
def XCCDF_RESULT_NOT_APPLICABLE : Nat := 5
def XCCDF_RESULT_NOT_CHECKED : Nat := 6
def XCCDF_RESULT_NOT_SELECTED : Nat := 7
def XCCDF_RESULT_INFORMATIONAL : Nat := 8

/-- Model of xccdf_bool_operator_t restricted to what _resolve_operation
distinguishes: the AND case, the OR case, and the default case of its switch. -/
inductive XccdfBoolOperator where
  | opAnd
  | opOr
  | opOther
deriving DecidableEq

/-! ## Result algebra: _resolve_operation (xccdf_policy.c lines 339-391)

The two 9x9 tables are transcribed literally from RESULT_TABLE_AND and
RESULT_TABLE_OR in the C source (row 0 and column 0 are the all-zero guard
row/column). -/

def RESULT_TABLE_AND : List (List Nat) :=
  [[0, 0, 0, 0, 0, 0, 0, 0, 0],
   [0, 1, 2, 3, 4, 1, 1, 1, 1],
   [0, 2, 2, 2, 2, 2, 2, 2, 2],
   [0, 4, 2, 4, 4, 4, 4, 4, 4],
   [0, 3, 2, 3, 4, 3, 3, 3, 3],
   [0, 1, 2, 3, 4, 5, 5, 5, 5],
   [0, 1, 2, 3, 4, 5, 6, 6, 6],
   [0, 1, 2, 3, 4, 5, 6, 7, 7],
   [0, 1, 2, 3, 4, 5, 6, 7, 8]]

def RESULT_TABLE_OR : List (List Nat) :=
  [[0, 0, 0, 0, 0, 0, 0, 0, 0],
   [0, 1, 1, 1, 1, 1, 1, 1, 1],
   [0, 1, 2, 3, 4, 2, 2, 2, 2],
   [0, 1, 4, 4, 4, 4, 4, 4, 4],
   [0, 1, 3, 3, 4, 3, 3, 3, 3],
   [0, 1, 2, 3, 4, 5, 5, 5, 5],
   [0, 1, 2, 3, 4, 5, 6, 6, 6],
   [0, 1, 2, 3, 4, 5, 6, 7, 7],
   [0, 1, 2, 3, 4, 5, 6, 7, 8]]

/-- The in-file documentation block above _resolve_operation (lines 328-335)
tabulates the intended AND semantics over P,F,U,E and the skip kinds; this is
that documented table, re-indexed by the enumeration values (Error = 3,
Unknown = 4).  It is used to compare the shipped tables against the comment
they carry. -/
def DOCUMENTED_TABLE_AND : List (List Nat) :=
  [[0, 0, 0, 0, 0, 0, 0, 0, 0],
   [0, 1, 2, 3, 4, 1, 1, 1, 1],
   [0, 2, 2, 2, 2, 2, 2, 2, 2],
   [0, 3, 2, 3, 4, 3, 3, 3, 3],
   [0, 4, 2, 4, 4, 4, 4, 4, 4],
   [0, 1, 2, 3, 4, 5, 5, 5, 5],
   [0, 1, 2, 3, 4, 5, 6, 6, 6],
   [0, 1, 2, 3, 4, 5, 6, 7, 7],
   [0, 1, 2, 3, 4, 5, 6, 7, 8]]

/-- Total variant of _resolve_operation for in-range result values, used by
the check evaluator where both arguments are previously produced result codes
(natural numbers).  Mirrors lines 339-391: the zero/overflow guard returns 0,
the switch looks the pair up in the operator table, the default case
returns 0. -/
def _resolve_operation (A B : Nat) (oper : XccdfBoolOperator) : Nat :=
  if A = 0 ∨ B = 0 ∨ A > XCCDF_RESULT_INFORMATIONAL ∨ B > XCCDF_RESULT_INFORMATIONAL then 0
  else
    match oper with
    | .opAnd => (RESULT_TABLE_AND.getD A []).getD B 0
    | .opOr => (RESULT_TABLE_OR.getD A []).getD B 0
    | .opOther => 0

/-- Raw C array access RESULT_TABLE_x[A][B] for int indices: defined (some)
exactly when both indices lie inside the declared 9x9 bounds, none models an
out-of-bounds read (undefined behaviour in the C). -/
def _table_access (table : List (List Nat)) (A B : Int) : Option Nat :=
  if 0 ≤ A ∧ A ≤ 8 ∧ 0 ≤ B ∧ B ≤ 8 then some ((table.getD A.toNat []).getD B.toNat 0)
  else none

/-- The C signature of _resolve_operation takes int A, int B.  This embedding
keeps the int domain: the guard of lines 370-374 and the switch default return
some 0, the table branches perform the raw array access, and none therefore
marks the executions in which the C reads its tables out of bounds. -/
def _resolve_operation_int (A B : Int) (oper : XccdfBoolOperator) : Option Nat :=
  if A = 0 ∨ B = 0 ∨ A > (XCCDF_RESULT_INFORMATIONAL : Int) ∨ B > (XCCDF_RESULT_INFORMATIONAL : Int) then
    some 0
  else
    match oper with
    | .opAnd => _table_access RESULT_TABLE_AND A B
    | .opOr => _table_access RESULT_TABLE_OR A B
    | .opOther => some 0

/-- Embedding of _resolve_negate (lines 402-409), taking the negate flag of
the check as a Bool. -/
def _resolve_negate (value : Nat) (negate : Bool) : Nat :=
  if negate then
    if value = XCCDF_RESULT_PASS then XCCDF_RESULT_FAIL
    else if value = XCCDF_RESULT_FAIL then XCCDF_RESULT_PASS
    else value
  else value

/-! ## Claims C1, C4, C10 about the result algebra -/

/-- C1: the claim asserts And(x,y) = And(y,x) and Or(x,y) = Or(y,x) for all
result kinds.  The shipped tables refute it: And(Pass, Error) = Error (3) but
And(Error, Pass) = Unknown (4).  Rows 3 (Error) and 4 (Unknown) of both
shipped tables are the rows the in-file documentation assigns to the opposite
kind, as the comparison with DOCUMENTED_TABLE_AND shows, so the code
contradicts the documentation block directly above the tables. -/
theorem C1_and_not_commutative_at_pass_error :
    _resolve_operation XCCDF_RESULT_PASS XCCDF_RESULT_ERROR .opAnd = XCCDF_RESULT_ERROR ∧
    _resolve_operation XCCDF_RESULT_ERROR XCCDF_RESULT_PASS .opAnd = XCCDF_RESULT_UNKNOWN ∧
    _resolve_operation XCCDF_RESULT_PASS XCCDF_RESULT_ERROR .opAnd ≠
      _resolve_operation XCCDF_RESULT_ERROR XCCDF_RESULT_PASS .opAnd ∧
    _resolve_operation XCCDF_RESULT_FAIL XCCDF_RESULT_ERROR .opOr ≠
      _resolve_operation XCCDF_RESULT_ERROR XCCDF_RESULT_FAIL .opOr ∧
    RESULT_TABLE_AND ≠ DOCUMENTED_TABLE_AND ∧
    RESULT_TABLE_AND.getD 3 [] = DOCUMENTED_TABLE_AND.getD 4 [] ∧
    RESULT_TABLE_AND.getD 4 [] = DOCUMENTED_TABLE_AND.getD 3 [] := by
  refine ⟨rfl, rfl, by decide, by decide, by decide, rfl, rfl⟩

/-- C4: the claim asserts And(x, Pass) = x and Or(x, Fail) = x for every
non-skip kind x.  The shipped tables refute it at x = Error:
And(Error, Pass) = Unknown and Or(Error, Fail) = Unknown, and likewise at
x = Unknown: And(Unknown, Pass) = Error. -/
theorem C4_identity_fails_at_error :
    _resolve_operation XCCDF_RESULT_ERROR XCCDF_RESULT_PASS .opAnd = XCCDF_RESULT_UNKNOWN ∧
    _resolve_operation XCCDF_RESULT_ERROR XCCDF_RESULT_PASS .opAnd ≠ XCCDF_RESULT_ERROR ∧
    _resolve_operation XCCDF_RESULT_ERROR XCCDF_RESULT_FAIL .opOr = XCCDF_RESULT_UNKNOWN ∧
    _resolve_operation XCCDF_RESULT_ERROR XCCDF_RESULT_FAIL .opOr ≠ XCCDF_RESULT_ERROR ∧
    _resolve_operation XCCDF_RESULT_UNKNOWN XCCDF_RESULT_PASS .opAnd = XCCDF_RESULT_ERROR := by
  refine ⟨rfl, by decide, rfl, by decide, rfl⟩

/-- C10 counterexample: the claim quantifies over every pair of integer
inputs, but a negative first argument passes the guard of lines 370-374
(it is neither 0 nor greater than Informational) and the table is then read
at a negative index, an out-of-bounds access. -/
theorem C10_counterexample_negative_index :
    _resolve_operation_int (-1) 1 .opAnd = none := by
  decide

/-- C10 amended: restricted to non-negative integer inputs, _resolve_operation
is total and in bounds: it returns 0 exactly on the guard conditions (either
argument 0 or above Informational, or an operator other than And/Or), and a
table value between 1 and 8 otherwise. -/
theorem C10_resolve_operation_total_nonneg (A B : Int) (oper : XccdfBoolOperator)
    (hA : 0 ≤ A) (hB : 0 ≤ B) :
    ∃ v, _resolve_operation_int A B oper = some v ∧
      ((A = 0 ∨ B = 0 ∨ A > 8 ∨ B > 8 ∨ oper = .opOther) → v = 0) ∧
      (A ≠ 0 → B ≠ 0 → A ≤ 8 → B ≤ 8 → oper ≠ .opOther → 1 ≤ v ∧ v ≤ 8) := by
  by_cases hg : A = 0 ∨ B = 0 ∨ A > (XCCDF_RESULT_INFORMATIONAL : Int) ∨ B > (XCCDF_RESULT_INFORMATIONAL : Int)
  · refine ⟨0, ?_, fun _ => rfl, ?_⟩
    · simp only [_resolve_operation_int, if_pos hg]
    · intro h1 h2 h3 h4 _
      exfalso
      simp only [XCCDF_RESULT_INFORMATIONAL] at hg
      rcases hg with h | h | h | h
      · exact h1 h
      · exact h2 h
      · omega
      · omega
  · push_neg at hg
    obtain ⟨h1, h2, h3, h4⟩ := hg
    simp only [XCCDF_RESULT_INFORMATIONAL] at h3 h4
    have hA8 : A ≤ 8 := by exact_mod_cast h3
    have hB8 : B ≤ 8 := by exact_mod_cast h4
    have hguard : ¬(A = 0 ∨ B = 0 ∨ A > (XCCDF_RESULT_INFORMATIONAL : Int) ∨
        B > (XCCDF_RESULT_INFORMATIONAL : Int)) := by
      push_neg
      exact ⟨h1, h2, by simpa [XCCDF_RESULT_INFORMATIONAL] using hA8,
        by simpa [XCCDF_RESULT_INFORMATIONAL] using hB8⟩
    cases oper with
    | opOther =>
        refine ⟨0, ?_, fun _ => rfl, fun _ _ _ _ ho => absurd rfl ho⟩
        simp only [_resolve_operation_int, if_neg hguard]
    | opAnd =>
        have ha : 1 ≤ A.toNat ∧ A.toNat ≤ 8 := by omega
        have hb : 1 ≤ B.toNat ∧ B.toNat ≤ 8 := by omega
        refine ⟨(RESULT_TABLE_AND.getD A.toNat []).getD B.toNat 0, ?_, ?_, ?_⟩
        · simp only [_resolve_operation_int, if_neg hguard, _table_access]
          rw [if_pos ⟨hA, hA8, hB, hB8⟩]
        · intro h
          exfalso
          rcases h with h | h | h | h | h
          · exact h1 h
          · exact h2 h
          · omega
          · omega
          · cases h
        · intro _ _ _ _ _
          obtain ⟨ha1, ha2⟩ := ha
          obtain ⟨hb1, hb2⟩ := hb
          interval_cases h : A.toNat <;> interval_cases h2 : B.toNat <;> simp [RESULT_TABLE_AND]
    | opOr =>
        have ha : 1 ≤ A.toNat ∧ A.toNat ≤ 8 := by omega
        have hb : 1 ≤ B.toNat ∧ B.toNat ≤ 8 := by omega
        refine ⟨(RESULT_TABLE_OR.getD A.toNat []).getD B.toNat 0, ?_, ?_, ?_⟩
        · simp only [_resolve_operation_int, if_neg hguard, _table_access]
          rw [if_pos ⟨hA, hA8, hB, hB8⟩]
        · intro h
          exfalso
          rcases h with h | h | h | h | h
          · exact h1 h
          · exact h2 h
          · omega
          · omega
          · cases h
        · intro _ _ _ _ _
          obtain ⟨ha1, ha2⟩ := ha
          obtain ⟨hb1, hb2⟩ := hb
          interval_cases h : A.toNat <;> interval_cases h2 : B.toNat <;> simp [RESULT_TABLE_OR]

/-- Witness for C10_resolve_operation_total_nonneg at A = 3, B = 1, And:
the hypotheses hold and the returned value is the table entry 4. -/
theorem C10_witness :
    (0 : Int) ≤ 3 ∧ (0 : Int) ≤ 1 ∧
    ∃ v, _resolve_operation_int 3 1 .opAnd = some v ∧
      (((3 : Int) = 0 ∨ (1 : Int) = 0 ∨ (3 : Int) > 8 ∨ (1 : Int) > 8 ∨
        XccdfBoolOperator.opAnd = .opOther) → v = 0) ∧
      ((3 : Int) ≠ 0 → (1 : Int) ≠ 0 → (3 : Int) ≤ 8 → (1 : Int) ≤ 8 →
        XccdfBoolOperator.opAnd ≠ .opOther → 1 ≤ v ∧ v ≤ 8) :=
  ⟨by decide, by decide,
    C10_resolve_operation_total_nonneg 3 1 .opAnd (by decide) (by decide)⟩

/-! ## Checks, content references and the engine registry -/

/-- Model of xccdf_check_content_ref: an href plus an optional definition
name. -/
structure XccdfCheckContentRef where
  href : String
  name : Option String
deriving DecidableEq

/- Model of struct xccdf_check, mirroring the fields the policy core reads:
system URI, optional selector, negate flag, complex flag, boolean operator,
multicheck flag, ordered content references and (for complex checks) ordered
children.  The children list is a purpose-built list type so that the mutual
recursion of the evaluator is structural. -/
mutual
inductive XccdfCheck where
  | mk (system : String) (selector : Option String) (negate : Bool) (complex : Bool)
      (oper : XccdfBoolOperator) (multicheck : Bool)
      (contentRefs : List XccdfCheckContentRef) (children : XccdfCheckList)
inductive XccdfCheckList where
  | nil
  | cons (c : XccdfCheck) (cs : XccdfCheckList)
end

def XccdfCheck.system : XccdfCheck → String
  | .mk s _ _ _ _ _ _ _ => s

def XccdfCheck.selector : XccdfCheck → Option String
  | .mk _ sel _ _ _ _ _ _ => sel

def XccdfCheck.negate : XccdfCheck → Bool
  | .mk _ _ n _ _ _ _ _ => n

def XccdfCheck.complex : XccdfCheck → Bool
  | .mk _ _ _ c _ _ _ _ => c

def XccdfCheck.oper : XccdfCheck → XccdfBoolOperator
  | .mk _ _ _ _ op _ _ _ => op

def XccdfCheck.multicheck : XccdfCheck → Bool
  | .mk _ _ _ _ _ m _ _ => m

def XccdfCheck.contentRefs : XccdfCheck → List XccdfCheckContentRef
  | .mk _ _ _ _ _ _ refs _ => refs

def XccdfCheck.children : XccdfCheck → XccdfCheckList
  | .mk _ _ _ _ _ _ _ cs => cs

/-- Copy of a check with the root negate flag replaced. -/
def XccdfCheck.setNegate : XccdfCheck → Bool → XccdfCheck
  | .mk s sel _ c op m refs cs, n => .mk s sel n c op m refs cs

/-- Model of a registered checking-engine callback (struct callback): the
system URI it was registered under, the eval function (content name and href
to a result code) and the optional query function used for multi-check. -/
structure Callback where
  system : String
  evalFn : Option String → String → Nat
  queryFn : Option (String → Option (List String))

/-- Embedding of _xccdf_policy_get_callbacks_by_sysname (lines 219-223):
filter the registered callbacks by system name. -/
def _xccdf_policy_get_callbacks_by_sysname (cbs : List Callback) (sysname : String) :
    List Callback :=
  cbs.filter (fun cb => cb.system = sysname)

/-- Embedding of _xccdf_policy_is_engine_registered (lines 679-683). -/
def _xccdf_policy_is_engine_registered (cbs : List Callback) (sysname : String) : Bool :=
  cbs.any (fun cb => cb.system = sysname)

/-- Loop body of xccdf_policy_evaluate_cb (lines 481-505): retval starts as
NotChecked, each matching callback is invoked in registration order, and the
loop stops at the first value other than NotChecked. -/
def _evaluate_cb_loop (content : Option String) (href : String) : List Callback → Nat
  | [] => XCCDF_RESULT_NOT_CHECKED
  | cb :: rest =>
      let retval := cb.evalFn content href
      if retval ≠ XCCDF_RESULT_NOT_CHECKED then retval
      else _evaluate_cb_loop content href rest

/-- Embedding of xccdf_policy_evaluate_cb: dispatch through the callbacks
registered for the system name. -/
def xccdf_policy_evaluate_cb (cbs : List Callback) (sysname : String)
    (content : Option String) (href : String) : Nat :=
  _evaluate_cb_loop content href (_xccdf_policy_get_callbacks_by_sysname cbs sysname)

/-- Content-ref loop of the simple branch of xccdf_policy_check_evaluate
(lines 646-671): ret starts as 0, each content reference is dispatched in
declaration order, and on the first result other than NotChecked the loop
stops and that content reference is injected (pinned) into the check; the
pair returned is (ret, pinned reference). -/
def _content_ref_loop (cbs : List Callback) (sysname : String) :
    List XccdfCheckContentRef → Nat × Option XccdfCheckContentRef
  | [] => (0, none)
  | content :: rest =>
      let ret := xccdf_policy_evaluate_cb cbs sysname content.name content.href
      if ret ≠ XCCDF_RESULT_NOT_CHECKED then (ret, some content)
      else
        match rest with
        | [] => (ret, none)
        | r :: rs => _content_ref_loop cbs sysname (r :: rs)

/- Embedding of xccdf_policy_check_evaluate (lines 613-677).  The complex
branch folds the children with ret initialised to 0, taking the first child
result directly and combining every further one through _resolve_operation;
the simple branch runs the content-ref loop; both end with the single
_resolve_negate of line 675.  Value-binding failure (which yields Unknown in
the C) is not modelled: the embedded checks carry no exports, for which
binding construction always succeeds and plays no role in the claims. -/
mutual
def xccdf_policy_check_evaluate (cbs : List Callback) : XccdfCheck → Nat
  | .mk system _ negate cplx oper _ refs children =>
      let ret :=
        if cplx then _check_children_loop cbs oper 0 children
        else (_content_ref_loop cbs system refs).1
      _resolve_negate ret negate
def _check_children_loop (cbs : List Callback) (oper : XccdfBoolOperator) (ret : Nat) :
    XccdfCheckList → Nat
  | .nil => ret
  | .cons child rest =>
      let ret2 := xccdf_policy_check_evaluate cbs child
      let ret3 := if ret = 0 then ret2 else _resolve_operation ret ret2 oper
      _check_children_loop cbs oper ret3 rest
end

/-! ## Claim C2: where negation is applied -/

/- Evaluation as claim C2 describes it: negate is applied exactly once at
the root of the whole evaluated check, and the negate flag of every check
nested inside a complex tree is ignored during the recursion.  Written from
the words of the claim, for comparison with the source embedding. -/
mutual
def C2_claim_eval_body (cbs : List Callback) : XccdfCheck → Nat
  | .mk system _ _ cplx oper _ refs children =>
      if cplx then C2_claim_children_loop cbs oper 0 children
      else (_content_ref_loop cbs system refs).1
def C2_claim_children_loop (cbs : List Callback) (oper : XccdfBoolOperator) (ret : Nat) :
    XccdfCheckList → Nat
  | .nil => ret
  | .cons child rest =>
      let ret2 := C2_claim_eval_body cbs child
      let ret3 := if ret = 0 then ret2 else _resolve_operation ret ret2 oper
      C2_claim_children_loop cbs oper ret3 rest
end

/-- Root evaluation under claim C2: negate once at the root only. -/
def C2_claim_eval_root (cbs : List Callback) (c : XccdfCheck) : Nat :=
  _resolve_negate (C2_claim_eval_body cbs c) c.negate

/-- One passing engine for system s1. -/
def exampleCallbacks : List Callback :=
  [⟨"s1", fun _ _ => XCCDF_RESULT_PASS, none⟩]

/-- A complex And check (negate false) with a single simple child whose
negate flag is set and whose engine returns Pass. -/
def exampleNegChild : XccdfCheck :=
  .mk "s1" none true false .opAnd false [⟨"content.xml", none⟩] .nil

def exampleComplexTree : XccdfCheck :=
  .mk "s1" none false true .opAnd false [] (.cons exampleNegChild .nil)

/-- C2 counterexample: on a complex And tree whose only child is a simple
check with negate set and a passing engine, the source evaluator returns
Fail (the child negate is applied during the recursion) while the evaluation
described by the claim (child negate never applied) returns Pass. -/
theorem C2_counterexample_child_negate_applied :
    xccdf_policy_check_evaluate exampleCallbacks exampleComplexTree = XCCDF_RESULT_FAIL ∧
    C2_claim_eval_root exampleCallbacks exampleComplexTree = XCCDF_RESULT_PASS ∧
    xccdf_policy_check_evaluate exampleCallbacks exampleComplexTree ≠
      C2_claim_eval_root exampleCallbacks exampleComplexTree := by
  refine ⟨rfl, rfl, by decide⟩

/-- C2 amended: negation is applied exactly once per evaluated check node,
not once per tree: the evaluation of any check equals one application of
_resolve_negate with its own negate flag on top of the evaluation of the
same check with the flag cleared, and (by definition of the evaluator)
children of a complex check are evaluated by the same rule, so every nested
negate flag is applied exactly once, at its own node. -/
theorem C2_negate_once_per_node (cbs : List Callback) (c : XccdfCheck) :
    xccdf_policy_check_evaluate cbs c =
      _resolve_negate (xccdf_policy_check_evaluate cbs (c.setNegate false)) c.negate := by
  cases c with
  | mk system sel negate cplx oper mc refs children =>
      simp [xccdf_policy_check_evaluate, XccdfCheck.setNegate, XccdfCheck.negate,
        _resolve_negate]

/-! ## Claim C3: TestResult id format (xccdf_policy_evaluate lines 2137-2167) -/

/-- Modelled from the spec: glibc strverscmp, as applied to XCCDF schema
version strings.  Schema versions are dot-separated numeric components
without leading zeroes (1.0, 1.1, 1.2, 1.3, 2.0), on which strverscmp is the
lexicographic comparison of the component sequences with components compared
numerically; versions are therefore embedded as component lists.  Returns a
negative, zero or positive value like the C function. -/
def strverscmp : List Nat → List Nat → Int
  | [], [] => 0
  | [], _ :: _ => -1
  | _ :: _, [] => 1
  | a :: as, b :: bs => if a < b then -1 else if b < a then 1 else strverscmp as bs

/-- TestResult id computation of xccdf_policy_evaluate (lines 2137-2167):
the suffix is the profile id when the policy has a profile with an id, else
"default-profile"; the branch on strverscmp("1.2", doc_version) >= 0 picks
the xccdf_org.open-scap_testresult_ style, the other branch the OSCAP-Test-
style. -/
def xccdf_policy_evaluate_result_id (doc_version : List Nat) (profile_id : Option String) :
    String :=
  let id := match profile_id with
    | some pid => pid
    | none => "default-profile"
  if strverscmp [1, 2] doc_version ≥ 0 then
    "xccdf_org.open-scap_testresult_" ++ id
  else
    "OSCAP-Test-" ++ id

/-- C3: the claim (and the comments inside the branch: the first branch says
it enforces the 1.2+ id style, the second says it keeps the previous
behaviour for backwards compatibility) requires the new style exactly for
schema versions at least 1.2.  The code tests strverscmp("1.2", doc_version)
>= 0, which holds exactly for versions at most 1.2, so version 1.1 gets the
new style and version 1.3 gets the legacy style, both against the claim. -/
theorem C3_result_id_version_branch_inverted :
    strverscmp [1, 2] [1, 1] > 0 ∧
    strverscmp [1, 2] [1, 3] < 0 ∧
    xccdf_policy_evaluate_result_id [1, 1] none =
      "xccdf_org.open-scap_testresult_default-profile" ∧
    xccdf_policy_evaluate_result_id [1, 3] (some "p1") = "OSCAP-Test-p1" ∧
    xccdf_policy_evaluate_result_id [1, 2] (some "p1") =
      "xccdf_org.open-scap_testresult_p1" := by
  refine ⟨by decide, by decide, rfl, rfl, rfl⟩

/-! ## Profile structures -/

/-- Model of xccdf_select: an item id and the selected flag. -/
structure XccdfSelect where
  item : String
  selected : Bool
deriving DecidableEq

/-- Model of xccdf_refine_rule with the fields the policy core reads.
Role and severity are optional because the C marks them unset with NaN;
weight carries its own defined flag (xccdf_refine_rule_weight_defined). -/
structure XccdfRefineRule where
  item : String
  selector : Option String
  role : Option Nat
  severity : Option Nat
  weightDefined : Bool
  weight : Nat
deriving DecidableEq

/-- Model of xccdf_setvalue. -/
structure XccdfSetvalue where
  item : String
  value : String
deriving DecidableEq

/-- Model of xccdf_refine_value; oper is an operator code (the embedding
does not model the NaN encoding the C uses for an absent operator, and the
claims only exercise refine-values whose operator is present). -/
structure XccdfRefineValue where
  item : String
  selector : Option String
  oper : Int
deriving DecidableEq

/-- Model of xccdf_profile as read by the policy core. -/
structure XccdfProfile where
  selects : List XccdfSelect
  refineRules : List XccdfRefineRule
  setvalues : List XccdfSetvalue
  refineValues : List XccdfRefineValue

/-! ## Claim C6: the check chooser (lines 685-720) -/

/-- Model of xccdf_rule as the chooser and the rule runner read it. -/
structure XccdfRule where
  id : String
  selected : Bool
  checks : List XccdfCheck

/-- Embedding of xccdf_policy_get_refine_rules_by_rule (lines 2240-2257):
the first refine-rule of the profile whose item matches the rule id. -/
def xccdf_policy_get_refine_rules_by_rule (profile : Option XccdfProfile)
    (rule : XccdfRule) : Option XccdfRefineRule :=
  match profile with
  | none => none
  | some p => p.refineRules.find? (fun rr => rr.item = rule.id)

/-- Modelled from the spec: xccdf_rule_get_complex_checks (declared in the
repository item headers, not under src) iterates the complex checks of the
rule. -/
def xccdf_rule_get_complex_checks (rule : XccdfRule) : List XccdfCheck :=
  rule.checks.filter (fun c => c.complex)

/-- Modelled from the spec: xccdf_rule_get_checks_filtered (not under src)
enumerates the simple checks of the rule whose selector equals the given
one, where the null selector matches checks with no selector at all. -/
def xccdf_rule_get_checks_filtered (rule : XccdfRule) (selector : Option String) :
    List XccdfCheck :=
  rule.checks.filter (fun c => ¬ c.complex ∧ c.selector = selector)

/-- Embedding of _xccdf_policy_rule_get_applicable_check (lines 685-720):
first complex check if any; otherwise filter the simple checks by the
refine-rule selector, refiltering with the null selector when a non-null
selector matched nothing, and keep overwriting result with every candidate
whose system has a registered engine (so the last registered candidate
wins). -/
def _xccdf_policy_rule_get_applicable_check (cbs : List Callback)
    (profile : Option XccdfProfile) (rule : XccdfRule) : Option XccdfCheck :=
  match (xccdf_rule_get_complex_checks rule).head? with
  | some c => some c
  | none =>
      let r_rule := xccdf_policy_get_refine_rules_by_rule profile rule
      let selector : Option String :=
        match r_rule with
        | none => none
        | some rr => rr.selector
      let candidates0 := xccdf_rule_get_checks_filtered rule selector
      let candidates :=
        if selector ≠ none ∧ candidates0.isEmpty then
          xccdf_rule_get_checks_filtered rule none
        else candidates0
      candidates.foldl
        (fun result check =>
          if _xccdf_policy_is_engine_registered cbs check.system then some check
          else result)
        none

/-- The chooser as claim C6 words it: the first complex check when there is
any; otherwise, among the selector-matched candidates (with the no-selector
fallback), the last one whose system URI has a registered engine, and no
check when none is registered. -/
def C6_claim_chooser (cbs : List Callback) (profile : Option XccdfProfile)
    (rule : XccdfRule) : Option XccdfCheck :=
  match (xccdf_rule_get_complex_checks rule).head? with
  | some c => some c
  | none =>
      let r_rule := xccdf_policy_get_refine_rules_by_rule profile rule
      let selector : Option String :=
        match r_rule with
        | none => none
        | some rr => rr.selector
      let candidates0 := xccdf_rule_get_checks_filtered rule selector
      let candidates :=
        if selector ≠ none ∧ candidates0.isEmpty then
          xccdf_rule_get_checks_filtered rule none
        else candidates0
      (candidates.filter
        (fun check => _xccdf_policy_is_engine_registered cbs check.system)).getLast?

/-- The last element of a cons list is the last element of its tail when the
tail has one, else the head. -/
theorem getLast?_cons_eq {α : Type} :
    ∀ (l : List α) (c : α),
      (c :: l).getLast? =
        (match l.getLast? with
          | some x => some x
          | none => some c) := by
  intro l
  induction l with
  | nil => intro c; rfl
  | cons y ys ih =>
      intro c
      rw [List.getLast?_cons_cons, ih y]
      cases h : ys.getLast? <;> rfl

/-- The while loop of lines 710-714 keeps the last element satisfying the
predicate: folding the overwrite step equals taking the last element of the
filtered list (falling back to the initial accumulator). -/
theorem foldl_keep_last {α : Type} (p : α → Bool) :
    ∀ (l : List α) (init : Option α),
      l.foldl (fun result c => if p c then some c else result) init =
        (match (l.filter p).getLast? with
          | some x => some x
          | none => init) := by
  intro l
  induction l with
  | nil => intro init; rfl
  | cons c rest ih =>
      intro init
      rw [List.foldl_cons, List.filter_cons, ih]
      by_cases hc : p c
      · simp only [hc, if_true]
        rw [getLast?_cons_eq (rest.filter p) c]
        cases h : (rest.filter p).getLast? <;> rfl
      · simp only [hc, Bool.false_eq_true, if_false]

/-- Special case of foldl_keep_last with an empty initial accumulator, the
shape the chooser uses. -/
theorem foldl_keep_last_none {α : Type} (p : α → Bool) (l : List α) :
    l.foldl (fun result c => if p c then some c else result) none =
      (l.filter p).getLast? := by
  rw [foldl_keep_last]
  cases h : (l.filter p).getLast? <;> rfl

/-- C6: the chooser of the source equals the chooser as the claim words it,
for every callback registry, profile and rule. -/
theorem C6_chooser_matches_claim (cbs : List Callback) (profile : Option XccdfProfile)
    (rule : XccdfRule) :
    _xccdf_policy_rule_get_applicable_check cbs profile rule =
      C6_claim_chooser cbs profile rule := by
  unfold _xccdf_policy_rule_get_applicable_check C6_claim_chooser
  cases hc : (xccdf_rule_get_complex_checks rule).head? with
  | some c => rfl
  | none => exact foldl_keep_last_none _ _

/-! ## Claim C7: content references are alternatives tried in order -/

/-- C7: for a nonempty content-ref list, the simple-check loop returns the
dispatch result of the first content reference whose dispatch is not
NotChecked, pins exactly that reference, and returns NotChecked with no
pinned reference when every dispatch yields NotChecked.  The find-first
formulation also expresses that references after the pinned one are never
consulted. -/
theorem _content_ref_loop_stop (cbs : List Callback) (sysname : String)
    (content : XccdfCheckContentRef) (rest : List XccdfCheckContentRef)
    (hr : xccdf_policy_evaluate_cb cbs sysname content.name content.href ≠
      XCCDF_RESULT_NOT_CHECKED) :
    _content_ref_loop cbs sysname (content :: rest) =
      (xccdf_policy_evaluate_cb cbs sysname content.name content.href, some content) := by
  cases rest <;> simp [_content_ref_loop, hr]

theorem _content_ref_loop_singleton_nc (cbs : List Callback) (sysname : String)
    (content : XccdfCheckContentRef)
    (hr : xccdf_policy_evaluate_cb cbs sysname content.name content.href =
      XCCDF_RESULT_NOT_CHECKED) :
    _content_ref_loop cbs sysname [content] = (XCCDF_RESULT_NOT_CHECKED, none) := by
  simp [_content_ref_loop, hr]

theorem _content_ref_loop_skip (cbs : List Callback) (sysname : String)
    (content r2 : XccdfCheckContentRef) (rs : List XccdfCheckContentRef)
    (hr : xccdf_policy_evaluate_cb cbs sysname content.name content.href =
      XCCDF_RESULT_NOT_CHECKED) :
    _content_ref_loop cbs sysname (content :: r2 :: rs) =
      _content_ref_loop cbs sysname (r2 :: rs) := by
  simp [_content_ref_loop, hr]

theorem C7_content_refs_first_terminal (cbs : List Callback) (sysname : String)
    (refs : List XccdfCheckContentRef) (h : refs ≠ []) :
    _content_ref_loop cbs sysname refs =
      (match refs.find?
          (fun r => xccdf_policy_evaluate_cb cbs sysname r.name r.href !=
            XCCDF_RESULT_NOT_CHECKED) with
        | some r => (xccdf_policy_evaluate_cb cbs sysname r.name r.href, some r)
        | none => (XCCDF_RESULT_NOT_CHECKED, none)) := by
  induction refs with
  | nil => exact absurd rfl h
  | cons content rest ih =>
      rw [List.find?_cons]
      by_cases hr : xccdf_policy_evaluate_cb cbs sysname content.name content.href =
          XCCDF_RESULT_NOT_CHECKED
      · have hb : (xccdf_policy_evaluate_cb cbs sysname content.name content.href !=
            XCCDF_RESULT_NOT_CHECKED) = false := by
          simp [hr]
        rw [hb]
        cases rest with
        | nil =>
            rw [_content_ref_loop_singleton_nc cbs sysname content hr]
            rfl
        | cons r2 rs =>
            rw [_content_ref_loop_skip cbs sysname content r2 rs hr]
            exact ih (by simp)
      · have hb : (xccdf_policy_evaluate_cb cbs sysname content.name content.href !=
            XCCDF_RESULT_NOT_CHECKED) = true := by
          simp [hr]
        rw [hb]
        rw [_content_ref_loop_stop cbs sysname content rest hr]

/-- Callback registry for the C7 witness: the engine answers NotChecked for
href A and Fail for anything else. -/
def C7_witness_callbacks : List Callback :=
  [⟨"s1", fun _ href => if href = "A" then XCCDF_RESULT_NOT_CHECKED else XCCDF_RESULT_FAIL,
    none⟩]

def C7_witness_refs : List XccdfCheckContentRef :=
  [⟨"A", none⟩, ⟨"B", none⟩]

/-- Witness for C7 at the content-ref fallback scenario of the spec: two
references A then B, the engine yields NotChecked for A and Fail for B, so
the loop returns Fail with B pinned. -/
theorem C7_witness :
    C7_witness_refs ≠ [] ∧
    _content_ref_loop C7_witness_callbacks "s1" C7_witness_refs =
      (XCCDF_RESULT_FAIL, some ⟨"B", none⟩) :=
  ⟨by decide,
    (C7_content_refs_first_terminal C7_witness_callbacks "s1" C7_witness_refs
      (by decide)).trans rfl⟩

/-! ## Claim C5: tailoring (xccdf_policy_tailor_item, lines 2317-2386)

In-place mutation is made observable by state passing: the embedding of
xccdf_policy_tailor_item returns the pair (returned item, state of the input
item after the call).  Setter calls on new_item only shape the first
component; setter calls on item change the second. -/

/-- Model of xccdf_value_instance: a selector and the carried value. -/
structure XccdfValueInstance where
  selector : Option String
  value : String
deriving DecidableEq

/-- Benchmark item as xccdf_policy_tailor_item reads it: a Rule with role,
severity and weight, a Group with weight, or a Value with operator and value
instances. -/
inductive XccdfTailorItem where
  | rule (id : String) (role : Nat) (severity : Nat) (weight : Nat)
  | group (id : String) (weight : Nat)
  | value (id : String) (oper : Int) (instances : List XccdfValueInstance)
deriving DecidableEq

/-- First refine-rule of the profile matching the item id, the lookup
xccdf_policy_get_refine_rules_by_rule performs. -/
def xccdf_policy_get_refine_rules_by_item (profile : Option XccdfProfile)
    (id : String) : Option XccdfRefineRule :=
  match profile with
  | none => none
  | some p => p.refineRules.find? (fun rr => rr.item = id)

/-- Modelled from the spec: xccdf_value_get_instance_by_selector (not under
src) returns the first value instance whose selector matches. -/
def xccdf_value_get_instance_by_selector (instances : List XccdfValueInstance)
    (selector : Option String) : Option XccdfValueInstance :=
  instances.find? (fun i => i.selector = selector)

/-- Embedding of xccdf_policy_get_value_of_item (lines 2259-2294): the first
matching setvalue of the profile wins; otherwise the first matching
refine-value selects an instance by its selector and that instance value is
returned; none when the profile has neither (or the selected instance is
absent, where the C would dereference null). -/
def xccdf_policy_get_value_of_item (profile : Option XccdfProfile) (id : String)
    (instances : List XccdfValueInstance) : Option String :=
  match profile with
  | none => none
  | some p =>
      match p.setvalues.find? (fun s => s.item = id) with
      | some s => some s.value
      | none =>
          match p.refineValues.find? (fun r => r.item = id) with
          | some r =>
              (xccdf_value_get_instance_by_selector instances r.selector).map
                (fun i => i.value)
          | none => none

/-- Embedding of xccdf_policy_get_refine_value_oper (lines 2296-2315): the
operator of the first matching refine-value, -1 when there is none. -/
def xccdf_policy_get_refine_value_oper (profile : Option XccdfProfile)
    (id : String) : Int :=
  match profile with
  | none => -1
  | some p =>
      match p.refineValues.find? (fun r => r.item = id) with
      | some r => r.oper
      | none => -1

/-- Selector scan of lines 2358-2364: the loop keeps overwriting selector
with the selector of every instance whose value equals the tailored value,
so the selector of the last matching instance remains (null when no instance
matches, indistinguishable in the C from a matching instance with a null
selector). -/
def _last_matching_selector (value : String) (instances : List XccdfValueInstance) :
    Option String :=
  match (instances.filter (fun i => decide (i.value = value))).getLast? with
  | some i => i.selector
  | none => none

/-- Mutation performed by xccdf_value_instance_set_defval_string on the
instance xccdf_value_get_instance_by_selector(new_item, NULL) returned: the
first instance with no selector gets the literal. -/
def _set_first_noselector_instance_value (value : String) :
    List XccdfValueInstance → List XccdfValueInstance
  | [] => []
  | i :: rest =>
      if i.selector = none then { i with value := value } :: rest
      else i :: _set_first_noselector_instance_value value rest

/-- Embedding of xccdf_policy_tailor_item (lines 2317-2386).  First
component: the item the function returns (none for the C NULL).  Second
component: the state of the input item after the call.  Note the VALUE
branch, lines 2377-2379: the refined operator is stored with
xccdf_value_set_oper into item, the original, not into new_item. -/
def xccdf_policy_tailor_item (profile : Option XccdfProfile)
    (item : XccdfTailorItem) : Option XccdfTailorItem × XccdfTailorItem :=
  match item with
  | .rule id role severity weight =>
      match xccdf_policy_get_refine_rules_by_item profile id with
      | none => (some item, item)
      | some rr =>
          let new_role := match rr.role with | some r => r | none => role
          let new_severity := match rr.severity with | some s => s | none => severity
          let new_weight := if rr.weightDefined then rr.weight else weight
          (some (.rule id new_role new_severity new_weight), item)
  | .group id _gweight =>
      match xccdf_policy_get_refine_rules_by_item profile id with
      | none => (some item, item)
      | some rr =>
          if rr.weightDefined then (some (.group id rr.weight), item)
          else (some item, item)
  | .value id oper instances =>
      match xccdf_policy_get_value_of_item profile id instances with
      | none => (none, item)
      | some value =>
          let selector : Option String := _last_matching_selector value instances
          let new_instances := instances.filter (fun i => decide (i.selector = selector))
          let new_instances2 :=
            match selector with
            | none => _set_first_noselector_instance_value value new_instances
            | some _ => new_instances
          let oper2 := xccdf_policy_get_refine_value_oper profile id
          if oper2 = -1 then (some (.value id oper new_instances2), item)
          else (some (.value id oper new_instances2), .value id oper2 instances)

/-- Value v1 with operator code 1 and a single default instance. -/
def C5_original_value : XccdfTailorItem := .value "v1" 1 [⟨none, "x"⟩]

/-- Profile with a setvalue for v1 and a refine-value for v1 carrying
operator code 2. -/
def C5_profile : XccdfProfile :=
  ⟨[], [], [⟨"v1", "lit"⟩], [⟨"v1", none, 2⟩]⟩

/-- C5: tailoring a Value under a Profile whose refine-value carries an
operator mutates the original Benchmark item: line 2379 calls
xccdf_value_set_oper on item instead of new_item, so after the call the
input Value carries operator 2 while the returned clone keeps the original
operator 1 (with the setvalue literal applied to its default instance).
This refutes the claim that the input item is unchanged and adjustments are
made only on the clone. -/
theorem C5_tailor_mutates_original_value :
    (xccdf_policy_tailor_item (some C5_profile) C5_original_value).2 ≠
      C5_original_value ∧
    (xccdf_policy_tailor_item (some C5_profile) C5_original_value).2 =
      .value "v1" 2 [⟨none, "x"⟩] ∧
    (xccdf_policy_tailor_item (some C5_profile) C5_original_value).1 =
      some (.value "v1" 1 [⟨none, "lit"⟩]) := by
  refine ⟨by decide, rfl, rfl⟩

/-! ## Claim C8: selection resolution (xccdf_policy_resolve_item, lines 419-476)

The Benchmark item tree: Rules (as above), Groups with a default-selected
flag and children, and Values.  The list of children is again a purpose-built
list type so that every recursion below is structural. -/

mutual
inductive XccdfItem where
  | rule (r : XccdfRule)
  | group (id : String) (selected : Bool) (children : XccdfItemList)
  | value (id : String)
inductive XccdfItemList where
  | nil
  | cons (item : XccdfItem) (rest : XccdfItemList)
end

/- All item ids of a subtree, in pre-order. -/
mutual
def item_ids : XccdfItem → List String
  | .rule r => [r.id]
  | .group id _ children => id :: item_list_ids children
  | .value id => [id]
def item_list_ids : XccdfItemList → List String
  | .nil => []
  | .cons item rest => item_ids item ++ item_list_ids rest
end

/- Rule ids of a subtree in Benchmark pre-order. -/
mutual
def pre_order_rule_ids : XccdfItem → List String
  | .rule r => [r.id]
  | .group _ _ children => pre_order_rule_ids_list children
  | .value _ => []
def pre_order_rule_ids_list : XccdfItemList → List String
  | .nil => []
  | .cons item rest => pre_order_rule_ids item ++ pre_order_rule_ids_list rest
end

/-- Embedding of xccdf_policy_has_select (lines 228-245). -/
def xccdf_policy_has_select (selects : List XccdfSelect) (id : String) : Bool :=
  selects.any (fun s => s.item = id)

/-- Embedding of xccdf_policy_get_select_by_id (lines 1965-1993): first
select whose item matches. -/
def xccdf_policy_get_select_by_id (selects : List XccdfSelect) (id : String) :
    Option XccdfSelect :=
  selects.find? (fun s => s.item = id)

/-- Effective selection value the policy records for an id: the selected
flag of the first matching select entry. -/
def xccdf_policy_select_value (selects : List XccdfSelect) (id : String) : Option Bool :=
  (xccdf_policy_get_select_by_id selects id).map (fun s => s.selected)

/-- In-place xccdf_select_set_selected on the entry
xccdf_policy_get_select_by_id found: update the first matching entry. -/
def _select_set_selected (id : String) (v : Bool) : List XccdfSelect → List XccdfSelect
  | [] => []
  | s :: rest =>
      if s.item = id then ⟨s.item, v⟩ :: rest
      else s :: _select_set_selected id v rest

/- Embedding of xccdf_policy_resolve_item (lines 419-476), with the policy
select list threaded explicitly.  Rule: if the policy already has a select
for the rule, its selected flag becomes parent AND its current value, else a
new select with parent AND the rule default is appended.  Group: when the
parent is selected, the flag passed to the children is the policy select
value if present, else the group default; a deselected parent propagates
false.  Other item kinds are ignored. -/
mutual
def xccdf_policy_resolve_item (selects : List XccdfSelect) (item : XccdfItem)
    (selected : Bool) : List XccdfSelect :=
  match item with
  | .rule r =>
      if xccdf_policy_has_select selects r.id then
        let cur : Bool :=
          match xccdf_policy_get_select_by_id selects r.id with
          | some s => s.selected
          | none => false
        _select_set_selected r.id (selected && cur) selects
      else selects ++ [⟨r.id, selected && r.selected⟩]
  | .group id gsel children =>
      let selected2 : Bool :=
        if selected then
          if xccdf_policy_has_select selects id then
            match xccdf_policy_get_select_by_id selects id with
            | some s => s.selected
            | none => false
          else gsel
        else selected
      xccdf_policy_resolve_items selects children selected2
  | .value _ => selects
def xccdf_policy_resolve_items (selects : List XccdfSelect) (items : XccdfItemList)
    (selected : Bool) : List XccdfSelect :=
  match items with
  | .nil => selects
  | .cons item rest =>
      xccdf_policy_resolve_items (xccdf_policy_resolve_item selects item selected) rest
        selected
end

/-- Select-list construction of xccdf_policy_new (lines 1871-1936): the
profile selects are cloned into the policy, then every top-level benchmark
item is resolved with parent_selected = true. -/
def xccdf_policy_new_selects (profile : Option XccdfProfile)
    (benchmark : XccdfItemList) : List XccdfSelect :=
  let selects0 : List XccdfSelect :=
    match profile with
    | some p => p.selects
    | none => []
  xccdf_policy_resolve_items selects0 benchmark true

/- The selection formula as claim C8 words it: walking the tree with an
inherited parent flag (initially true), a Rule contributes the entry
(rule id, parent AND (profile select if present else rule default)); a Group
updates the inherited flag to parent AND (profile select if present else
group default); Values contribute nothing.  The profile select lookup is
over the original profile selects. -/
mutual
def C8_spec_walk (prof : List XccdfSelect) (parent : Bool) : XccdfItem → List (String × Bool)
  | .rule r =>
      [(r.id, parent &&
        (match xccdf_policy_select_value prof r.id with
          | some v => v
          | none => r.selected))]
  | .group id gsel children =>
      C8_spec_walk_list prof
        (parent &&
          (match xccdf_policy_select_value prof id with
            | some v => v
            | none => gsel))
        children
  | .value _ => []
def C8_spec_walk_list (prof : List XccdfSelect) (parent : Bool) :
    XccdfItemList → List (String × Bool)
  | .nil => []
  | .cons item rest =>
      C8_spec_walk prof parent item ++ C8_spec_walk_list prof parent rest
end

/-! ### Select-list lemmas -/

theorem has_select_eq_isSome (S : List XccdfSelect) (id : String) :
    xccdf_policy_has_select S id = (xccdf_policy_get_select_by_id S id).isSome := by
  induction S with
  | nil => rfl
  | cons s rest ih =>
      simp only [xccdf_policy_has_select, xccdf_policy_get_select_by_id, List.any_cons,
        List.find?_cons] at *
      by_cases h : s.item = id
      · simp [h]
      · simp [h, ih]

theorem select_value_set_self (id : String) (v : Bool) (S : List XccdfSelect)
    (h : xccdf_policy_has_select S id = true) :
    xccdf_policy_select_value (_select_set_selected id v S) id = some v := by
  induction S with
  | nil => simp [xccdf_policy_has_select] at h
  | cons s rest ih =>
      by_cases hs : s.item = id
      · simp [xccdf_policy_select_value, xccdf_policy_get_select_by_id,
          _select_set_selected, hs]
      · have h2 : xccdf_policy_has_select rest id = true := by
          simpa [xccdf_policy_has_select, List.any_cons, hs] using h
        simpa [xccdf_policy_select_value, xccdf_policy_get_select_by_id,
          _select_set_selected, hs, List.find?_cons] using ih h2

theorem select_value_set_other (id id2 : String) (v : Bool) (S : List XccdfSelect)
    (h : id2 ≠ id) :
    xccdf_policy_select_value (_select_set_selected id v S) id2 =
      xccdf_policy_select_value S id2 := by
  have h2 : ¬ (id = id2) := fun hc => h hc.symm
  induction S with
  | nil => rfl
  | cons s rest ih =>
      simp only [_select_set_selected]
      by_cases hs : s.item = id
      · simp [xccdf_policy_select_value, xccdf_policy_get_select_by_id,
          List.find?_cons, hs, h2]
      · by_cases hs3 : s.item = id2
        · simp [xccdf_policy_select_value, xccdf_policy_get_select_by_id,
            List.find?_cons, hs, hs3, h2, h]
        · simpa [xccdf_policy_select_value, xccdf_policy_get_select_by_id,
            List.find?_cons, hs, hs3, h2, h] using ih

theorem find?_append_first {α : Type} (p : α → Bool) (S T : List α) :
    (S ++ T).find? p =
      (match S.find? p with
        | some x => some x
        | none => T.find? p) := by
  induction S with
  | nil => rfl
  | cons a rest ih =>
      by_cases h : p a
      · simp [List.find?_cons, h]
      · simp only [List.cons_append, List.find?_cons, h]
        simpa [h] using ih

theorem select_value_append_one (S : List XccdfSelect) (e : XccdfSelect) (id : String) :
    xccdf_policy_select_value (S ++ [e]) id =
      (match xccdf_policy_select_value S id with
        | some v => some v
        | none => if e.item = id then some e.selected else none) := by
  simp only [xccdf_policy_select_value, xccdf_policy_get_select_by_id,
    find?_append_first]
  cases h : S.find? (fun s => s.item = id) with
  | some s => rfl
  | none =>
      by_cases he : e.item = id
      · simp [List.find?_cons, he]
      · simp [List.find?_cons, he]

/-! ### Spec-walk entries name ids of the subtree -/

mutual
theorem spec_walk_mem_ids : ∀ (P : List XccdfSelect) (b : Bool) (item : XccdfItem)
    (id : String) (v : Bool), (id, v) ∈ C8_spec_walk P b item → id ∈ item_ids item := by
  intro P b item id v hmem
  cases item with
  | rule r =>
      simp only [C8_spec_walk, List.mem_singleton, Prod.mk.injEq] at hmem
      simp [item_ids, hmem.1]
  | group gid gsel children =>
      simp only [C8_spec_walk] at hmem
      have := spec_walk_list_mem_ids P _ children id v hmem
      simp [item_ids, this]
  | value vid => simp [C8_spec_walk] at hmem
theorem spec_walk_list_mem_ids : ∀ (P : List XccdfSelect) (b : Bool)
    (items : XccdfItemList) (id : String) (v : Bool),
    (id, v) ∈ C8_spec_walk_list P b items → id ∈ item_list_ids items := by
  intro P b items id v hmem
  cases items with
  | nil => simp [C8_spec_walk_list] at hmem
  | cons item rest =>
      simp only [C8_spec_walk_list, List.mem_append] at hmem
      cases hmem with
      | inl h => exact List.mem_append_left _ (spec_walk_mem_ids P b item id v h)
      | inr h => exact List.mem_append_right _ (spec_walk_list_mem_ids P b rest id v h)
end

/-! ### Correctness of the selection resolver against the C8 formula -/

mutual
theorem resolve_item_correct : ∀ (S P : List XccdfSelect) (b : Bool) (item : XccdfItem),
    (item_ids item).Nodup →
    (∀ id, id ∈ item_ids item →
      xccdf_policy_select_value S id = xccdf_policy_select_value P id) →
    ((∀ id v, (id, v) ∈ C8_spec_walk P b item →
        xccdf_policy_select_value (xccdf_policy_resolve_item S item b) id = some v) ∧
     (∀ id, id ∉ item_ids item →
        xccdf_policy_select_value (xccdf_policy_resolve_item S item b) id =
          xccdf_policy_select_value S id)) := by
  intro S P b item hnd hag
  cases item with
  | rule r =>
      have hagr := hag r.id (by simp [item_ids])
      constructor
      · intro id v hmem
        simp only [C8_spec_walk, List.mem_singleton, Prod.mk.injEq] at hmem
        obtain ⟨hid, hv⟩ := hmem
        subst hid
        subst hv
        by_cases hb : xccdf_policy_has_select S r.id = true
        · have hsome : (xccdf_policy_get_select_by_id S r.id).isSome = true := by
            rw [← has_select_eq_isSome]
            exact hb
          obtain ⟨s, hs⟩ := Option.isSome_iff_exists.mp hsome
          have hPs : xccdf_policy_select_value P r.id = some s.selected := by
            rw [← hagr]
            simp [xccdf_policy_select_value, hs]
          simp only [xccdf_policy_resolve_item, hb, if_true, hs, hPs]
          exact select_value_set_self r.id _ S hb
        · have hnone : xccdf_policy_get_select_by_id S r.id = none := by
            have := has_select_eq_isSome S r.id
            rw [Bool.not_eq_true] at hb
            rw [hb] at this
            cases h : xccdf_policy_get_select_by_id S r.id with
            | some s => rw [h] at this; simp at this
            | none => rfl
          have hPn : xccdf_policy_select_value P r.id = none := by
            rw [← hagr]
            simp [xccdf_policy_select_value, hnone]
          simp only [xccdf_policy_resolve_item, hb, if_false, Bool.false_eq_true, hPn]
          rw [select_value_append_one]
          simp [xccdf_policy_select_value, hnone]
      · intro id hid
        have hne : id ≠ r.id := by
          simp [item_ids] at hid
          exact hid
        by_cases hb : xccdf_policy_has_select S r.id = true
        · simp only [xccdf_policy_resolve_item, hb, if_true]
          exact select_value_set_other r.id id _ S hne
        · simp only [xccdf_policy_resolve_item, hb, if_false, Bool.false_eq_true]
          rw [select_value_append_one]
          cases h : xccdf_policy_select_value S id with
          | some v => rfl
          | none => simp [hne.symm]
  | group gid gsel children =>
      have hnd2 : (item_list_ids children).Nodup := by
        simpa [item_ids] using (List.nodup_cons.mp (by simpa [item_ids] using hnd)).2
      have hgid : gid ∉ item_list_ids children :=
        (List.nodup_cons.mp (by simpa [item_ids] using hnd)).1
      have hagg := hag gid (by simp [item_ids])
      have hag2 : ∀ id, id ∈ item_list_ids children →
          xccdf_policy_select_value S id = xccdf_policy_select_value P id := by
        intro id hid
        exact hag id (by simp [item_ids, hid])
      have hs2 :
          (if b then
            (if xccdf_policy_has_select S gid then
              (match xccdf_policy_get_select_by_id S gid with
                | some s => s.selected
                | none => false)
            else gsel)
          else b) =
          (b && (match xccdf_policy_select_value P gid with
            | some v => v
            | none => gsel)) := by
        cases b with
        | false => rfl
        | true =>
            simp only [if_true, Bool.true_and]
            by_cases hb : xccdf_policy_has_select S gid = true
            · have hsome : (xccdf_policy_get_select_by_id S gid).isSome = true := by
                rw [← has_select_eq_isSome]; exact hb
              obtain ⟨s, hs⟩ := Option.isSome_iff_exists.mp hsome
              have hPs : xccdf_policy_select_value P gid = some s.selected := by
                rw [← hagg]
                simp [xccdf_policy_select_value, hs]
              simp [hb, hs, hPs]
            · have hnone : xccdf_policy_get_select_by_id S gid = none := by
                have := has_select_eq_isSome S gid
                rw [Bool.not_eq_true] at hb
                rw [hb] at this
                cases h : xccdf_policy_get_select_by_id S gid with
                | some s => rw [h] at this; simp at this
                | none => rfl
              have hPn : xccdf_policy_select_value P gid = none := by
                rw [← hagg]
                simp [xccdf_policy_select_value, hnone]
              simp [hb, hPn]
      have IH := resolve_items_correct S P
        (b && (match xccdf_policy_select_value P gid with
          | some v => v
          | none => gsel)) children hnd2 hag2
      constructor
      · intro id v hmem
        simp only [C8_spec_walk] at hmem
        have h1 := IH.1 id v hmem
        simpa [xccdf_policy_resolve_item, hs2] using h1
      · intro id hid
        have hidc : id ∉ item_list_ids children := by
          simp [item_ids] at hid
          exact fun hc => hid.2 hc
        have h2 := IH.2 id hidc
        simpa [xccdf_policy_resolve_item, hs2] using h2
  | value vid =>
      constructor
      · intro id v hmem
        simp [C8_spec_walk] at hmem
      · intro id _
        rfl
theorem resolve_items_correct : ∀ (S P : List XccdfSelect) (b : Bool)
    (items : XccdfItemList),
    (item_list_ids items).Nodup →
    (∀ id, id ∈ item_list_ids items →
      xccdf_policy_select_value S id = xccdf_policy_select_value P id) →
    ((∀ id v, (id, v) ∈ C8_spec_walk_list P b items →
        xccdf_policy_select_value (xccdf_policy_resolve_items S items b) id = some v) ∧
     (∀ id, id ∉ item_list_ids items →
        xccdf_policy_select_value (xccdf_policy_resolve_items S items b) id =
          xccdf_policy_select_value S id)) := by
  intro S P b items hnd hag
  cases items with
  | nil =>
      constructor
      · intro id v hmem
        simp [C8_spec_walk_list] at hmem
      · intro id _
        rfl
  | cons item rest =>
      have hnd1 : (item_ids item).Nodup :=
        (List.nodup_append.mp (by simpa [item_list_ids] using hnd)).1
      have hnd2 : (item_list_ids rest).Nodup :=
        (List.nodup_append.mp (by simpa [item_list_ids] using hnd)).2.1
      have hdis : ∀ id, id ∈ item_ids item → id ∉ item_list_ids rest := by
        intro id hid
        exact (List.nodup_append.mp (by simpa [item_list_ids] using hnd)).2.2 hid
      have hag1 : ∀ id, id ∈ item_ids item →
          xccdf_policy_select_value S id = xccdf_policy_select_value P id := by
        intro id hid
        exact hag id (by simp [item_list_ids, hid])
      have IH1 := resolve_item_correct S P b item hnd1 hag1
      have hag2 : ∀ id, id ∈ item_list_ids rest →
          xccdf_policy_select_value (xccdf_policy_resolve_item S item b) id =
            xccdf_policy_select_value P id := by
        intro id hid
        have hni : id ∉ item_ids item := by
          intro hc
          exact hdis id hc hid
        rw [IH1.2 id hni]
        exact hag id (by simp [item_list_ids, hid])
      have IH2 := resolve_items_correct (xccdf_policy_resolve_item S item b) P b rest
        hnd2 hag2
      constructor
      · intro id v hmem
        simp only [C8_spec_walk_list, List.mem_append] at hmem
        cases hmem with
        | inl h =>
            have hidin : id ∈ item_ids item := spec_walk_mem_ids P b item id v h
            have h1 := IH1.1 id v h
            have h2 := IH2.2 id (hdis id hidin)
            simpa [xccdf_policy_resolve_items, h2] using h1
        | inr h =>
            simpa [xccdf_policy_resolve_items] using IH2.1 id v h
      · intro id hid
        simp only [item_list_ids, List.mem_append] at hid
        push_neg at hid
        have h2 := IH2.2 id hid.2
        have h1 := IH1.2 id hid.1
        simp only [xccdf_policy_resolve_items]
        rw [h2, h1]
end

/-- C8: after Policy construction, the effective selection entry of every
Rule equals parent_selected AND (the Profile select if present, else the
item default), propagated along the Group chain, for every Benchmark whose
item ids are distinct; the spec-walk membership in the hypothesis names the
Rule entry that the claim formula produces. -/
theorem C8_effective_selection (p : XccdfProfile) (benchmark : XccdfItemList)
    (hnd : (item_list_ids benchmark).Nodup) (id : String) (v : Bool)
    (hmem : (id, v) ∈ C8_spec_walk_list p.selects true benchmark) :
    xccdf_policy_select_value (xccdf_policy_new_selects (some p) benchmark) id =
      some v :=
  (resolve_items_correct p.selects p.selects true benchmark hnd
    (fun _ _ => rfl)).1 id v hmem

/-- Benchmark for the C8 witness: Group g1 (default selected) containing
Rule r1 (default selected). -/
def C8_witness_benchmark : XccdfItemList :=
  .cons (.group "g1" true (.cons (.rule ⟨"r1", true, []⟩) .nil)) .nil

/-- Profile for the C8 witness: deselects Group g1 only. -/
def C8_witness_profile : XccdfProfile := ⟨[⟨"g1", false⟩], [], [], []⟩

/-- Witness for C8: the profile deselects the enclosing group g1, so rule
r1, although selected by default, gets effective selection false. -/
theorem C8_witness :
    (item_list_ids C8_witness_benchmark).Nodup ∧
    ("r1", false) ∈ C8_spec_walk_list C8_witness_profile.selects true C8_witness_benchmark ∧
    xccdf_policy_select_value
      (xccdf_policy_new_selects (some C8_witness_profile) C8_witness_benchmark) "r1" =
      some false :=
  ⟨by decide, by decide,
    C8_effective_selection C8_witness_profile C8_witness_benchmark (by decide) "r1" false
      (by decide)⟩

/-! ## Claim C9: order of RuleResults in a TestResult

Embedding of the evaluation pipeline xccdf_policy_evaluate (lines 2122-2197)
-> xccdf_policy_item_evaluate (lines 1157-1193) ->
_xccdf_policy_rule_evaluate (lines 1037-1150).  The embedding records the
sequence of RuleResults appended to the TestResult.  CPE applicability
(component C5 of the spec, lines 900-1029) is abstracted as an oracle
predicate on rule ids; start and output hooks are not registered, so every
report callback loop returns 0 and never truncates evaluation; value-binding
construction always succeeds because the embedded checks carry no exports. -/

/-- A RuleResult reduced to what the order claim concerns: the rule idref
and the recorded result. -/
structure XccdfRuleResult where
  idref : String
  result : Nat
deriving DecidableEq

/- Modelled from the spec: xccdf_benchmark_get_item (benchmark infrastructure
outside src) finds the item carrying the given unique id, searching the tree
in pre-order. -/
mutual
def _item_find (item : XccdfItem) (id : String) : Option XccdfItem :=
  match item with
  | .rule r => if r.id = id then some item else none
  | .group gid _ children =>
      if gid = id then some item else _item_list_find children id
  | .value vid => if vid = id then some item else none
def _item_list_find (items : XccdfItemList) (id : String) : Option XccdfItem :=
  match items with
  | .nil => none
  | .cons item rest =>
      match _item_find item id with
      | some found => some found
      | none => _item_list_find rest id
end

/-- Modelled from the spec: xccdf_check_inject_content_ref (not under src)
pins the given (content-ref, name) pair as the single target of the check. -/
def xccdf_check_inject_content_ref (c : XccdfCheck) (ref : XccdfCheckContentRef)
    (name : Option String) : XccdfCheck :=
  match c with
  | .mk sys sel neg cplx oper mc _ children =>
      .mk sys sel neg cplx oper mc [⟨ref.href, name⟩] children

/-- Query loop of _xccdf_policy_get_namesfor_href (lines 512-527): callbacks
without a query function are skipped, and the loop continues while the query
result is null. -/
def _namesfor_loop (href : String) : List Callback → Option (List String)
  | [] => none
  | cb :: rest =>
      match cb.queryFn with
      | none => _namesfor_loop href rest
      | some q =>
          match q href with
          | some names => some names
          | none => _namesfor_loop href rest

/-- Embedding of _xccdf_policy_get_namesfor_href. -/
def _xccdf_policy_get_namesfor_href (cbs : List Callback) (sysname href : String) :
    Option (List String) :=
  _namesfor_loop href (_xccdf_policy_get_callbacks_by_sysname cbs sysname)

/-- Content-ref loop of _xccdf_policy_rule_evaluate (lines 1081-1149).  For
each reference in order: when the reference has no name and the check is
multi-check, a successful names query yields one Unknown RuleResult for an
empty name list or one RuleResult per name (check clone with the pinned
(reference, name) evaluated); a failed query, like a non-multi-check
reference, dispatches the reference and stops at the first result other than
NotChecked; after the loop the single negate of line 1148 is applied and one
RuleResult is emitted.  On an empty reference list the C reads ret
uninitialised at line 1143; the embedding uses 0 there (the emission
happens regardless of the value, and _xccdf_policy_rule_evaluate only calls
the loop with the references of the chosen check). -/
def _rule_refs_loop (cbs : List Callback) (r : XccdfRule) (check : XccdfCheck) :
    List XccdfCheckContentRef → List XccdfRuleResult
  | [] => [⟨r.id, _resolve_negate 0 check.negate⟩]
  | content :: rest =>
      match (if content.name = none ∧ check.multicheck = true then
          _xccdf_policy_get_namesfor_href cbs check.system content.href
        else none) with
      | some [] => [⟨r.id, XCCDF_RESULT_UNKNOWN⟩]
      | some (nm :: nms) =>
          (nm :: nms).map (fun n =>
            ⟨r.id, xccdf_policy_check_evaluate cbs
              (xccdf_check_inject_content_ref check content (some n))⟩)
      | none =>
          let ret := xccdf_policy_evaluate_cb cbs check.system content.name content.href
          if ret ≠ XCCDF_RESULT_NOT_CHECKED then
            [⟨r.id, _resolve_negate ret check.negate⟩]
          else
            match rest with
            | [] => [⟨r.id, _resolve_negate ret check.negate⟩]
            | r2 :: rs => _rule_refs_loop cbs r check (r2 :: rs)

/-- Embedding of _xccdf_policy_rule_evaluate (lines 1037-1150), recording
the RuleResults it reports: NotSelected for a deselected rule,
NotApplicable when the applicability oracle rejects it, NotChecked when the
chooser finds no check, the complex-check evaluation for a complex choice,
and the content-ref loop for a simple choice (the clone of line 1060 is the
identity in the pure embedding). -/
def _xccdf_policy_rule_evaluate (cbs : List Callback) (applicable : String → Bool)
    (profile : Option XccdfProfile) (selects : List XccdfSelect) (r : XccdfRule) :
    List XccdfRuleResult :=
  let is_selected : Bool :=
    match xccdf_policy_get_select_by_id selects r.id with
    | some s => s.selected
    | none => false
  if is_selected = false then [⟨r.id, XCCDF_RESULT_NOT_SELECTED⟩]
  else if applicable r.id = false then [⟨r.id, XCCDF_RESULT_NOT_APPLICABLE⟩]
  else
    match _xccdf_policy_rule_get_applicable_check cbs profile r with
    | none => [⟨r.id, XCCDF_RESULT_NOT_CHECKED⟩]
    | some check =>
        if check.complex then [⟨r.id, xccdf_policy_check_evaluate cbs check⟩]
        else _rule_refs_loop cbs r check check.contentRefs

/-- Embedding of xccdf_policy_item_evaluate (lines 1157-1193): a Rule is
evaluated directly; a Group iterates its children but the loop at line 1180
breaks whenever the child returned 0 (ret == false), which every child does
when no hook aborts, so only the first child is processed; other items
contribute nothing. -/
def xccdf_policy_item_evaluate (cbs : List Callback) (applicable : String → Bool)
    (profile : Option XccdfProfile) (selects : List XccdfSelect) :
    XccdfItem → List XccdfRuleResult
  | .rule r => _xccdf_policy_rule_evaluate cbs applicable profile selects r
  | .group _ _ children =>
      match children with
      | .nil => []
      | .cons child _ => xccdf_policy_item_evaluate cbs applicable profile selects child
  | .value _ => []

/-- Select iteration of xccdf_policy_evaluate (lines 2170-2192): walk the
policy select list in order, skip selects whose id is absent from the
benchmark and selects naming a Group, evaluate the found item otherwise (the
break conditions of lines 2185-2190 never fire without hooks). -/
def xccdf_policy_evaluate_loop (cbs : List Callback) (applicable : String → Bool)
    (profile : Option XccdfProfile) (benchmark : XccdfItemList)
    (selects_all : List XccdfSelect) : List XccdfSelect → List XccdfRuleResult
  | [] => []
  | sel :: rest =>
      match _item_list_find benchmark sel.item with
      | none => xccdf_policy_evaluate_loop cbs applicable profile benchmark selects_all rest
      | some item =>
          match item with
          | .group _ _ _ =>
              xccdf_policy_evaluate_loop cbs applicable profile benchmark selects_all rest
          | _ =>
              xccdf_policy_item_evaluate cbs applicable profile selects_all item ++
                xccdf_policy_evaluate_loop cbs applicable profile benchmark selects_all rest

/-- Whole-policy evaluation: construct the policy selects as
xccdf_policy_new does, then iterate them. -/
def xccdf_policy_evaluate_model (cbs : List Callback) (applicable : String → Bool)
    (profile : Option XccdfProfile) (benchmark : XccdfItemList) : List XccdfRuleResult :=
  let selects := xccdf_policy_new_selects profile benchmark
  xccdf_policy_evaluate_loop cbs applicable profile benchmark selects selects

/-- Benchmark for the C9 counterexample: Rules r1 then r2 at top level. -/
def C9_benchmark : XccdfItemList :=
  .cons (.rule ⟨"r1", true, []⟩) (.cons (.rule ⟨"r2", true, []⟩) .nil)

/-- Profile listing its selects in the order r2, r1, against the Benchmark
item order. -/
def C9_profile : XccdfProfile := ⟨[⟨"r2", true⟩, ⟨"r1", true⟩], [], [], []⟩

/-- C9 counterexample: the evaluation loop iterates the policy select list,
which starts with the cloned Profile selects in Profile order, so the
RuleResults for the profile ordering r2, r1 come out as r2, r1 while the
Benchmark pre-order of the Rules is r1, r2: the claim fails for a Profile
whose selects are not in Benchmark order. -/
theorem C9_counterexample_profile_order :
    (xccdf_policy_evaluate_model [] (fun _ => true) (some C9_profile) C9_benchmark).map
      (fun rr => rr.idref) = ["r2", "r1"] ∧
    pre_order_rule_ids_list C9_benchmark = ["r1", "r2"] ∧
    (xccdf_policy_evaluate_model [] (fun _ => true) (some C9_profile) C9_benchmark).map
      (fun rr => rr.idref) ≠ pre_order_rule_ids_list C9_benchmark := by
  refine ⟨rfl, rfl, by decide⟩

/-! ### Fresh resolution appends the spec-walk entries in pre-order -/

theorem has_select_append (S T : List XccdfSelect) (id : String) :
    xccdf_policy_has_select (S ++ T) id =
      (xccdf_policy_has_select S id || xccdf_policy_has_select T id) := by
  simp [xccdf_policy_has_select, List.any_append]

theorem walk_map_has_false (b : Bool) (item : XccdfItem) (id : String)
    (h : id ∉ item_ids item) :
    xccdf_policy_has_select
      ((C8_spec_walk [] b item).map (fun e => (⟨e.1, e.2⟩ : XccdfSelect))) id = false := by
  rw [xccdf_policy_has_select, List.any_eq_false]
  intro s hs
  simp only [List.mem_map] at hs
  obtain ⟨e, he, hse⟩ := hs
  have hid : e.1 ∈ item_ids item := spec_walk_mem_ids [] b item e.1 e.2 (by
    have : e = (e.1, e.2) := rfl
    rw [← this]
    exact he)
  simp only [← hse]
  simp only [decide_eq_true_eq]
  intro hc
  rw [hc] at hid
  exact h hid

mutual
theorem resolve_item_fresh : ∀ (S : List XccdfSelect) (b : Bool) (item : XccdfItem),
    (item_ids item).Nodup →
    (∀ id, id ∈ item_ids item → xccdf_policy_has_select S id = false) →
    xccdf_policy_resolve_item S item b =
      S ++ (C8_spec_walk [] b item).map (fun e => (⟨e.1, e.2⟩ : XccdfSelect)) := by
  intro S b item hnd hfresh
  cases item with
  | rule r =>
      have hb := hfresh r.id (by simp [item_ids])
      simp [xccdf_policy_resolve_item, hb, C8_spec_walk, xccdf_policy_select_value,
        xccdf_policy_get_select_by_id]
  | group gid gsel children =>
      have hb := hfresh gid (by simp [item_ids])
      have hnd2 : (item_list_ids children).Nodup :=
        (List.nodup_cons.mp (by simpa [item_ids] using hnd)).2
      have hfresh2 : ∀ id, id ∈ item_list_ids children →
          xccdf_policy_has_select S id = false := by
        intro id hid
        exact hfresh id (by simp [item_ids, hid])
      have hval : xccdf_policy_select_value ([] : List XccdfSelect) gid = none := rfl
      have hs2 :
          (if b then
            (if xccdf_policy_has_select S gid then
              (match xccdf_policy_get_select_by_id S gid with
                | some s => s.selected
                | none => false)
            else gsel)
          else b) = (b && gsel) := by
        cases b with
        | false => rfl
        | true => simp [hb]
      have := resolve_items_fresh S (b && gsel) children hnd2 hfresh2
      simp only [xccdf_policy_resolve_item, hs2, C8_spec_walk, hval]
      exact this
  | value vid =>
      simp [xccdf_policy_resolve_item, C8_spec_walk]
theorem resolve_items_fresh : ∀ (S : List XccdfSelect) (b : Bool)
    (items : XccdfItemList),
    (item_list_ids items).Nodup →
    (∀ id, id ∈ item_list_ids items → xccdf_policy_has_select S id = false) →
    xccdf_policy_resolve_items S items b =
      S ++ (C8_spec_walk_list [] b items).map (fun e => (⟨e.1, e.2⟩ : XccdfSelect)) := by
  intro S b items hnd hfresh
  cases items with
  | nil => simp [xccdf_policy_resolve_items, C8_spec_walk_list]
  | cons item rest =>
      have hnd1 : (item_ids item).Nodup :=
        (List.nodup_append.mp (by simpa [item_list_ids] using hnd)).1
      have hnd2 : (item_list_ids rest).Nodup :=
        (List.nodup_append.mp (by simpa [item_list_ids] using hnd)).2.1
      have hdis : ∀ id, id ∈ item_ids item → id ∉ item_list_ids rest :=
        fun id hid =>
          (List.nodup_append.mp (by simpa [item_list_ids] using hnd)).2.2 hid
      have hfresh1 : ∀ id, id ∈ item_ids item → xccdf_policy_has_select S id = false :=
        fun id hid => hfresh id (by simp [item_list_ids, hid])
      have h1 := resolve_item_fresh S b item hnd1 hfresh1
      have hfresh2 : ∀ id, id ∈ item_list_ids rest →
          xccdf_policy_has_select
            (S ++ (C8_spec_walk [] b item).map (fun e => (⟨e.1, e.2⟩ : XccdfSelect)))
            id = false := by
        intro id hid
        rw [has_select_append]
        have hidni : id ∉ item_ids item := fun hc => hdis id hc hid
        rw [hfresh id (by simp [item_list_ids, hid]), walk_map_has_false b item id hidni]
        rfl
      have h2 := resolve_items_fresh
        (S ++ (C8_spec_walk [] b item).map (fun e => (⟨e.1, e.2⟩ : XccdfSelect)))
        b rest hnd2 hfresh2
      simp only [xccdf_policy_resolve_items, h1, h2, C8_spec_walk_list, List.map_append,
        List.append_assoc]
end

/-! ### Spec-walk entry ids are the pre-order rule ids -/

mutual
theorem walk_map_fst_eq_pre_order : ∀ (P : List XccdfSelect) (b : Bool) (item : XccdfItem),
    (C8_spec_walk P b item).map (fun e => e.1) = pre_order_rule_ids item := by
  intro P b item
  cases item with
  | rule r => rfl
  | group gid gsel children =>
      simp only [C8_spec_walk, pre_order_rule_ids]
      exact walk_list_map_fst_eq_pre_order P _ children
  | value vid => rfl
theorem walk_list_map_fst_eq_pre_order : ∀ (P : List XccdfSelect) (b : Bool)
    (items : XccdfItemList),
    (C8_spec_walk_list P b items).map (fun e => e.1) = pre_order_rule_ids_list items := by
  intro P b items
  cases items with
  | nil => rfl
  | cons item rest =>
      simp only [C8_spec_walk_list, pre_order_rule_ids_list, List.map_append]
      rw [walk_map_fst_eq_pre_order P b item, walk_list_map_fst_eq_pre_order P b rest]
end

/-! ### Benchmark lookup of a pre-order rule id finds that rule -/

mutual
theorem pre_order_subset_ids : ∀ (item : XccdfItem) (id : String),
    id ∈ pre_order_rule_ids item → id ∈ item_ids item := by
  intro item id h
  cases item with
  | rule r => simpa [pre_order_rule_ids, item_ids] using h
  | group gid gsel children =>
      simp only [pre_order_rule_ids] at h
      simp [item_ids, pre_order_subset_ids_list children id h]
  | value vid => simp [pre_order_rule_ids] at h
theorem pre_order_subset_ids_list : ∀ (items : XccdfItemList) (id : String),
    id ∈ pre_order_rule_ids_list items → id ∈ item_list_ids items := by
  intro items id h
  cases items with
  | nil => simp [pre_order_rule_ids_list] at h
  | cons item rest =>
      simp only [pre_order_rule_ids_list, List.mem_append] at h
      cases h with
      | inl h => exact List.mem_append_left _ (pre_order_subset_ids item id h)
      | inr h => exact List.mem_append_right _ (pre_order_subset_ids_list rest id h)
end

mutual
theorem item_find_none : ∀ (item : XccdfItem) (id : String),
    id ∉ item_ids item → _item_find item id = none := by
  intro item id h
  cases item with
  | rule r =>
      have : ¬ (r.id = id) := by
        simp [item_ids] at h
        exact fun hc => h hc.symm
      simp [_item_find, this]
  | group gid gsel children =>
      simp only [item_ids, List.mem_cons] at h
      push_neg at h
      have hg : ¬ (gid = id) := fun hc => h.1 hc.symm
      simp [_item_find, hg, item_list_find_none children id h.2]
  | value vid =>
      have : ¬ (vid = id) := by
        simp [item_ids] at h
        exact fun hc => h hc.symm
      simp [_item_find, this]
theorem item_list_find_none : ∀ (items : XccdfItemList) (id : String),
    id ∉ item_list_ids items → _item_list_find items id = none := by
  intro items id h
  cases items with
  | nil => rfl
  | cons item rest =>
      simp only [item_list_ids, List.mem_append] at h
      push_neg at h
      simp [_item_list_find, item_find_none item id h.1, item_list_find_none rest id h.2]
end

mutual
theorem item_find_rule : ∀ (item : XccdfItem) (id : String),
    (item_ids item).Nodup → id ∈ pre_order_rule_ids item →
    ∃ r : XccdfRule, _item_find item id = some (.rule r) ∧ r.id = id := by
  intro item id hnd h
  cases item with
  | rule r =>
      have hid : r.id = id := by
        have := h
        simp only [pre_order_rule_ids, List.mem_singleton] at this
        exact this.symm
      exact ⟨r, by simp [_item_find, hid], hid⟩
  | group gid gsel children =>
      simp only [pre_order_rule_ids] at h
      have hgid : gid ∉ item_list_ids children :=
        (List.nodup_cons.mp (by simpa [item_ids] using hnd)).1
      have hnd2 : (item_list_ids children).Nodup :=
        (List.nodup_cons.mp (by simpa [item_ids] using hnd)).2
      have hne : ¬ (gid = id) := by
        intro hc
        rw [hc] at hgid
        exact hgid (pre_order_subset_ids_list children id h)
      have := item_list_find_rule children id hnd2 h
      simpa [_item_find, hne] using this
  | value vid => simp [pre_order_rule_ids] at h
theorem item_list_find_rule : ∀ (items : XccdfItemList) (id : String),
    (item_list_ids items).Nodup → id ∈ pre_order_rule_ids_list items →
    ∃ r : XccdfRule, _item_list_find items id = some (.rule r) ∧ r.id = id := by
  intro items id hnd h
  cases items with
  | nil => simp [pre_order_rule_ids_list] at h
  | cons item rest =>
      have hnd1 : (item_ids item).Nodup :=
        (List.nodup_append.mp (by simpa [item_list_ids] using hnd)).1
      have hnd2 : (item_list_ids rest).Nodup :=
        (List.nodup_append.mp (by simpa [item_list_ids] using hnd)).2.1
      have hdis : ∀ x, x ∈ item_ids item → x ∉ item_list_ids rest :=
        fun x hx =>
          (List.nodup_append.mp (by simpa [item_list_ids] using hnd)).2.2 hx
      simp only [pre_order_rule_ids_list, List.mem_append] at h
      cases h with
      | inl h =>
          obtain ⟨r, hr, hrid⟩ := item_find_rule item id hnd1 h
          exact ⟨r, by simp [_item_list_find, hr], hrid⟩
      | inr h =>
          have hni : id ∉ item_ids item := by
            intro hc
            exact hdis id hc (pre_order_subset_ids_list rest id h)
          obtain ⟨r, hr, hrid⟩ := item_list_find_rule rest id hnd2 h
          exact ⟨r, by simp [_item_list_find, item_find_none item id hni, hr], hrid⟩
end

/-! ### Each rule select produces exactly one RuleResult with its idref -/

theorem namesfor_none_of_no_query (cbs : List Callback)
    (hq : ∀ cb ∈ cbs, cb.queryFn = none) (sysname href : String) :
    _xccdf_policy_get_namesfor_href cbs sysname href = none := by
  unfold _xccdf_policy_get_namesfor_href
  have hall : ∀ l : List Callback, (∀ cb ∈ l, cb.queryFn = none) →
      _namesfor_loop href l = none := by
    intro l
    induction l with
    | nil => intro _; rfl
    | cons cb rest ih =>
        intro hl
        have h1 := hl cb (by simp)
        simp only [_namesfor_loop, h1]
        exact ih (fun c hc => hl c (by simp [hc]))
  apply hall
  intro cb hcb
  exact hq cb (List.mem_of_mem_filter hcb)

theorem rule_refs_loop_idrefs (cbs : List Callback) (r : XccdfRule) (check : XccdfCheck)
    (hq : ∀ cb ∈ cbs, cb.queryFn = none) (refs : List XccdfCheckContentRef) :
    (_rule_refs_loop cbs r check refs).map (fun rr => rr.idref) = [r.id] := by
  induction refs with
  | nil => rfl
  | cons content rest ih =>
      have hn : _xccdf_policy_get_namesfor_href cbs check.system content.href = none :=
        namesfor_none_of_no_query cbs hq check.system content.href
      rw [_rule_refs_loop.eq_2, hn, ite_self]
      by_cases hr : xccdf_policy_evaluate_cb cbs check.system content.name content.href =
          XCCDF_RESULT_NOT_CHECKED
      · simp only [hr, ne_eq, not_true_eq_false, if_false, reduceIte]
        cases rest with
        | nil => rfl
        | cons r2 rs => exact ih
      · simp [hr]

theorem rule_evaluate_idrefs (cbs : List Callback) (applicable : String → Bool)
    (profile : Option XccdfProfile) (selects : List XccdfSelect) (r : XccdfRule)
    (hq : ∀ cb ∈ cbs, cb.queryFn = none) :
    (_xccdf_policy_rule_evaluate cbs applicable profile selects r).map
      (fun rr => rr.idref) = [r.id] := by
  unfold _xccdf_policy_rule_evaluate
  by_cases h1 : (match xccdf_policy_get_select_by_id selects r.id with
      | some s => s.selected
      | none => false) = false
  · simp only [h1, if_pos]
    rfl
  · simp only [h1, if_neg, if_false]
    by_cases h2 : applicable r.id = false
    · simp only [h2, if_pos]
      rfl
    · simp only [h2, if_neg, if_false]
      cases hch : _xccdf_policy_rule_get_applicable_check cbs profile r with
      | none => rfl
      | some check =>
          by_cases h3 : check.complex = true
          · simp [h3]
          · simp only [h3, Bool.false_eq_true, if_false]
            exact rule_refs_loop_idrefs cbs r check hq check.contentRefs

theorem evaluate_loop_idrefs (cbs : List Callback) (applicable : String → Bool)
    (profile : Option XccdfProfile) (benchmark : XccdfItemList)
    (selects_all : List XccdfSelect) (hq : ∀ cb ∈ cbs, cb.queryFn = none) :
    ∀ iter : List XccdfSelect,
      (∀ sel ∈ iter, ∃ r : XccdfRule,
        _item_list_find benchmark sel.item = some (.rule r) ∧ r.id = sel.item) →
      (xccdf_policy_evaluate_loop cbs applicable profile benchmark selects_all
        iter).map (fun rr => rr.idref) = iter.map (fun s => s.item) := by
  intro iter
  induction iter with
  | nil => intro _; rfl
  | cons sel rest ih =>
      intro hfind
      obtain ⟨r, hr, hrid⟩ := hfind sel (by simp)
      simp only [xccdf_policy_evaluate_loop, hr, List.map_cons]
      rw [List.map_append]
      rw [ih (fun s hs => hfind s (by simp [hs]))]
      have hone : (xccdf_policy_item_evaluate cbs applicable profile selects_all
          (.rule r)).map (fun rr => rr.idref) = [r.id] := by
        simp only [xccdf_policy_item_evaluate]
        exact rule_evaluate_idrefs cbs applicable profile selects_all r hq
      rw [hone, hrid]
      rfl

/-- C9 amended: the RuleResults follow the order of the Policy select list;
for a Policy whose Profile contributes no selects (the default Policy,
profile = none), that order is exactly the Benchmark pre-order of the Rules
whenever the Benchmark ids are distinct and no registered engine offers a
query function (no multi-check fan-out, so every Rule yields exactly one
RuleResult). -/
theorem C9_default_policy_results_pre_order (cbs : List Callback)
    (applicable : String → Bool) (benchmark : XccdfItemList)
    (hnd : (item_list_ids benchmark).Nodup)
    (hq : ∀ cb ∈ cbs, cb.queryFn = none) :
    (xccdf_policy_evaluate_model cbs applicable none benchmark).map
      (fun rr => rr.idref) = pre_order_rule_ids_list benchmark := by
  have hsel : xccdf_policy_new_selects none benchmark =
      (C8_spec_walk_list [] true benchmark).map (fun e => (⟨e.1, e.2⟩ : XccdfSelect)) := by
    have := resolve_items_fresh [] true benchmark hnd (fun id _ => rfl)
    simpa [xccdf_policy_new_selects] using this
  have hitems : ((C8_spec_walk_list [] true benchmark).map
      (fun e => (⟨e.1, e.2⟩ : XccdfSelect))).map (fun s => s.item) =
      pre_order_rule_ids_list benchmark := by
    rw [List.map_map]
    exact walk_list_map_fst_eq_pre_order [] true benchmark
  have hfind : ∀ sel ∈ (C8_spec_walk_list [] true benchmark).map
      (fun e => (⟨e.1, e.2⟩ : XccdfSelect)), ∃ r : XccdfRule,
      _item_list_find benchmark sel.item = some (.rule r) ∧ r.id = sel.item := by
    intro sel hs
    have hpre : sel.item ∈ pre_order_rule_ids_list benchmark := by
      rw [← hitems]
      exact List.mem_map_of_mem _ hs
    exact item_list_find_rule benchmark sel.item hnd hpre
  unfold xccdf_policy_evaluate_model
  simp only [hsel]
  rw [evaluate_loop_idrefs cbs applicable none benchmark _ hq _ hfind]
  exact hitems

/-- Witness for the amended C9 theorem on the counterexample Benchmark under
the default Policy: ids are distinct, no engine offers a query function, and
the RuleResults come out as r1, r2, the Benchmark pre-order. -/
theorem C9_witness :
    (item_list_ids C9_benchmark).Nodup ∧
    (∀ cb ∈ ([] : List Callback), cb.queryFn = none) ∧
    (xccdf_policy_evaluate_model [] (fun _ => true) none C9_benchmark).map
      (fun rr => rr.idref) = ["r1", "r2"] :=
  ⟨by decide, by simp,
    (C9_default_policy_results_pre_order [] (fun _ => true) C9_benchmark (by decide)
      (by simp)).trans rfl⟩

end XccdfPolicy
